import Mathlib

/-!
# Verification of the VIN-checker bot (`bot.py`)

A shallow embedding of the VIN acquisition & enrichment pipeline of
`bot.py`.  Message text is modelled as `List Char` (Python `len` counts
code points, exactly as `List.length` does here).  External effects
(browser, HTTP decode service, generative text service, Telegram) are
modelled as explicit oracle parameters; exceptions raised by an external
call are modelled by the oracle's failure constructor.  Python string
helpers (`strip`, `isalnum`, `split`, `replace`) are embedded as
executable functions on `List Char`.
-/

set_option maxRecDepth 100000

/-- Python whitespace characters (ASCII subset; the program only ever
strips ASCII text). Used by `pyStrip`, modelling `str.strip()`. -/
def isPySpace (c : Char) : Bool :=
  c == ' ' || c == '\t' || c == '\n' || c == '\r' || c == '\x0b' || c == '\x0c'

/-- Python `s.strip()`: drop leading and trailing whitespace. -/
def pyStrip (l : List Char) : List Char :=
  ((l.dropWhile isPySpace).reverse.dropWhile isPySpace).reverse

/-- Python `s.isalnum()` (ASCII model): nonempty and every character a
letter or digit.  Note this accepts `I`, `O`, `Q` and lowercase letters. -/
def pyIsAlnum (l : List Char) : Bool :=
  !l.isEmpty && l.all fun c => c.isAlpha || c.isDigit

/-- Python `s.replace(" ", "")`: remove every space character. -/
def remSpaces (l : List Char) : List Char :=
  l.filter fun c => !(c == ' ')

/-- The character class of the VIN regex `[A-HJ-NPR-Z0-9]` at
`bot.py:124` (the permitted VIN alphabet, excluding `I`, `O`, `Q`). -/
def vinAlphaChar (c : Char) : Bool :=
  ('A' ≤ c && c ≤ 'H') || ('J' ≤ c && c ≤ 'N') || c == 'P' ||
    ('R' ≤ c && c ≤ 'Z') || ('0' ≤ c && c ≤ '9')

/-- The VIN acceptance check of `scrape_vin_from_website`
(`bot.py:111-114`): the element text is stripped, then accepted iff
`len(vin_text) == 17 and vin_text.replace(" ", "").isalnum()`. -/
def isValidVin (s : List Char) : Bool :=
  let t := pyStrip s
  (t.length == 17) && pyIsAlnum (remSpaces t)

/-- `re.findall(r"[A-HJ-NPR-Z0-9]{17}", text)` restricted to its first
match: the leftmost run of 17 consecutive VIN-alphabet characters
(`bot.py:122-127`). -/
def firstVinMatch : List Char → Option (List Char)
  | [] => none
  | c :: cs =>
    let cand := (c :: cs).take 17
    if cand.length == 17 && cand.all vinAlphaChar then some cand
    else firstVinMatch cs

example : isValidVin ("1HGCM82633A004352".data) = true := by decide
example : isValidVin ("1HGCM82633A00435O".data) = true := by decide
example : firstVinMatch ("xx1HGCM82633A004352y".data) = some ("1HGCM82633A004352".data) := by decide

/-- Does `l` begin with `sep`?  (Occurrence test used by `pySplit`.) -/
def startsWithL : List Char → List Char → Bool
  | [], _ => true
  | _ :: _, [] => false
  | c :: cs, d :: ds => c == d && startsWithL cs ds

/-- Worker for `pySplit`; `fuel` bounds the recursion (it is set to the
length of the text, which suffices because each step past a separator
occurrence consumes at least one character). -/
def pySplitAux (sep : List Char) : Nat → List Char → List (List Char)
  | _, [] => [[]]
  | 0, text => [text]
  | fuel + 1, c :: cs =>
    if startsWithL sep (c :: cs) then
      [] :: pySplitAux sep fuel ((c :: cs).drop sep.length)
    else
      match pySplitAux sep fuel cs with
      | [] => [[c]]
      | p :: ps => (c :: p) :: ps

/-- Python `text.split(sep)` for a nonempty separator: the list of
fragments between non-overlapping left-to-right occurrences of `sep`
(`bot.py:272`). -/
def pySplit (sep text : List Char) : List (List Char) :=
  pySplitAux sep text.length text

example : pySplit ("--".data) ("ab--cd--".data) = ["ab".data, "cd".data, [] ] := by decide
example : pySplit ("--".data) ("abcd".data) = ["abcd".data] := by decide
example : pySplit ("--".data) [] = [[]] := by decide

theorem startsWithL_self_append (sep b : List Char) :
    startsWithL sep (sep ++ b) = true := by
  induction sep with
  | nil => rfl
  | cons c cs ih => simp [startsWithL, ih]

theorem startsWithL_append_drop :
    ∀ (sep l : List Char), startsWithL sep l = true →
      sep ++ l.drop sep.length = l := by
  intro sep
  induction sep with
  | nil => intro l _; rfl
  | cons c cs ih =>
    intro l h
    cases l with
    | nil => simp [startsWithL] at h
    | cons d ds =>
      simp only [startsWithL, Bool.and_eq_true, beq_iff_eq] at h
      obtain ⟨rfl, h2⟩ := h
      simpa using ih ds h2

theorem pySplitAux_ne_nil (sep : List Char) :
    ∀ (fuel : Nat) (text : List Char), pySplitAux sep fuel text ≠ [] := by
  intro fuel
  induction fuel with
  | zero => intro text; cases text <;> simp [pySplitAux]
  | succ f ih =>
    intro text
    cases text with
    | nil => simp [pySplitAux]
    | cons c cs =>
      simp only [pySplitAux]
      by_cases h : startsWithL sep (c :: cs) = true
      · simp [h]
      · simp only [Bool.not_eq_true] at h
        simp only [h, Bool.false_eq_true, if_false]
        rcases hq : pySplitAux sep f cs with _ | ⟨p, ps⟩
        · simp
        · simp

theorem intercalate_two (sep x y : List Char) (zs : List (List Char)) :
    List.intercalate sep (x :: y :: zs) =
      x ++ sep ++ List.intercalate sep (y :: zs) := by
  simp [List.intercalate, List.intersperse]

theorem pySplitAux_flatten (sep : List Char) (hsep : sep ≠ []) :
    ∀ (fuel : Nat) (text : List Char), text.length ≤ fuel →
      List.intercalate sep (pySplitAux sep fuel text) = text := by
  intro fuel
  induction fuel with
  | zero =>
    intro text hlen
    have : text = [] := by
      cases text with
      | nil => rfl
      | cons c cs => simp at hlen
    subst this
    simp [pySplitAux, List.intercalate]
  | succ f ih =>
    intro text hlen
    cases text with
    | nil => simp [pySplitAux, List.intercalate]
    | cons c cs =>
      simp only [pySplitAux]
      by_cases h : startsWithL sep (c :: cs) = true
      · simp only [h, if_true]
        have hdrop : sep ++ (c :: cs).drop sep.length = c :: cs :=
          startsWithL_append_drop sep (c :: cs) h
        have hlen2 : ((c :: cs).drop sep.length).length ≤ f := by
          have h1 : 1 ≤ sep.length := by
            cases sep with
            | nil => exact absurd rfl hsep
            | cons a as => simp
          simp only [List.length_drop]
          simp only [List.length_cons] at hlen ⊢
          omega
        have hrec := ih ((c :: cs).drop sep.length) hlen2
        rcases hq : pySplitAux sep f ((c :: cs).drop sep.length) with _ | ⟨p, ps⟩
        · exact absurd hq (pySplitAux_ne_nil sep f _)
        · rw [hq] at hrec
          rw [intercalate_two]
          rw [hrec]
          simpa using hdrop
      · simp only [Bool.not_eq_true] at h
        simp only [h, Bool.false_eq_true, if_false]
        have hlen2 : cs.length ≤ f := by
          simp only [List.length_cons] at hlen; omega
        have hrec := ih cs hlen2
        rcases hq : pySplitAux sep f cs with _ | ⟨p, ps⟩
        · exact absurd hq (pySplitAux_ne_nil sep f _)
        · rw [hq] at hrec
          cases ps with
          | nil =>
            simp [List.intercalate] at hrec ⊢
            simp [hrec]
          | cons q qs =>
            rw [intercalate_two] at hrec ⊢
            rw [List.cons_append, List.cons_append]
            exact congrArg (c :: ·) hrec

theorem pySplit_flatten (sep text : List Char) (hsep : sep ≠ []) :
    List.intercalate sep (pySplit sep text) = text :=
  pySplitAux_flatten sep hsep text.length text (Nat.le_refl _)

theorem pySplitAux_no_occ (s : Char) (ss : List Char) :
    ∀ (b : List Char), (∀ x ∈ b, (s == x) = false) →
      ∀ fuel, pySplitAux (s :: ss) fuel b = [b] := by
  intro b
  induction b with
  | nil => intro _ fuel; cases fuel <;> rfl
  | cons c cs ih =>
    intro hfree fuel
    cases fuel with
    | zero => rfl
    | succ f =>
      have hc : (s == c) = false := hfree c (List.mem_cons_self c cs)
      have hcs : ∀ x ∈ cs, (s == x) = false := fun x hx =>
        hfree x (List.mem_cons_of_mem c hx)
      simp only [pySplitAux, startsWithL, hc, Bool.false_and,
        Bool.false_eq_true, if_false]
      rw [ih hcs f]

theorem pySplitAux_append_occ (s : Char) (ss : List Char) (a b : List Char)
    (ha : ∀ x ∈ a, (s == x) = false) (hb : ∀ x ∈ b, (s == x) = false) :
    ∀ fuel, a.length + (s :: ss).length + b.length ≤ fuel →
      pySplitAux (s :: ss) fuel (a ++ (s :: ss) ++ b) = [a, b] := by
  induction a with
  | nil =>
    intro fuel hfuel
    simp only [List.length_nil, List.nil_append] at hfuel ⊢
    cases fuel with
    | zero => simp [List.length_cons] at hfuel
    | succ f =>
      have hstart : startsWithL (s :: ss) ((s :: ss) ++ b) = true :=
        startsWithL_self_append (s :: ss) b
      rw [show (s :: ss) ++ b = s :: (ss ++ b) from rfl] at hstart ⊢
      simp only [pySplitAux, hstart, if_true]
      rw [show s :: (ss ++ b) = (s :: ss) ++ b from rfl]
      rw [List.drop_left]
      rw [pySplitAux_no_occ s ss b hb f]
  | cons c a2 ih =>
    intro fuel hfuel
    cases fuel with
    | zero => simp [List.length_cons] at hfuel
    | succ f =>
      have hc : (s == c) = false := ha c (List.mem_cons_self c a2)
      have ha2 : ∀ x ∈ a2, (s == x) = false := fun x hx =>
        ha x (List.mem_cons_of_mem c hx)
      rw [show (c :: a2) ++ (s :: ss) ++ b = c :: (a2 ++ (s :: ss) ++ b) by
        simp]
      simp only [pySplitAux, startsWithL, hc, Bool.false_and,
        Bool.false_eq_true, if_false]
      have hfuel2 : a2.length + (s :: ss).length + b.length ≤ f := by
        simp only [List.length_cons] at hfuel ⊢; omega
      rw [ih ha2 f hfuel2]

/-- A list whose elements are not all whitespace strips to a nonempty
list. -/
theorem pyStrip_ne_nil (l : List Char) (c : Char) (hc : c ∈ l)
    (hw : isPySpace c = false) : pyStrip l ≠ [] := by
  intro hnil
  unfold pyStrip at hnil
  rw [List.reverse_eq_nil_iff] at hnil
  rw [List.dropWhile_eq_nil_iff] at hnil
  have hmem : ∀ x ∈ l.dropWhile isPySpace, isPySpace x = true := by
    intro x hx
    exact hnil x (List.mem_reverse.mpr hx)
  have hall : ∀ x ∈ l, isPySpace x = true := by
    intro x hx
    have hsplit2 := List.takeWhile_append_dropWhile (p := isPySpace) (l := l)
    rw [← hsplit2] at hx
    rcases List.mem_append.mp hx with h | h
    · exact List.mem_takeWhile_imp h
    · exact hmem x h
  rw [hall c hc] at hw
  simp at hw

/-- The `info` dict built by `get_vin_info` (`bot.py:228-233`). -/
structure VinInfo where
  make : List Char
  model : List Char
  year : List Char
  fuel_capacity : List Char
deriving DecidableEq

/-- One entry of the `results` list built by `process_vin_count`
(`bot.py:174-202`): either a success dict `{index, vin, info}` or an
error dict `{index, error}` / `{index, vin, error}` (the `vin` key is
present only for decode failures). -/
inductive PyResult where
  | ok (index : Nat) (vin : List Char) (info : VinInfo)
  | err (index : Nat) (vin : Option (List Char)) (error : List Char)
deriving DecidableEq

/-- The `index` field of a result dict. -/
def PyResult.index : PyResult → Nat
  | .ok i _ _ => i
  | .err i _ _ => i

/-- Is this entry a success dict (no `error` key)? -/
def PyResult.isOk : PyResult → Bool
  | .ok _ _ _ => true
  | .err _ _ _ => false

/-- `success_count` computed by the loop of `send_batch_results`
(`bot.py:249-264`). -/
def successCount (results : List PyResult) : Nat :=
  (results.filter PyResult.isOk).length

/-- Decimal rendering of an index, as Python `f"{i}"`. -/
def natChars (n : Nat) : List Char :=
  (Nat.repr n).data

/-- The delimiter line `"─" * 30` of `send_batch_results`
(`bot.py:266,272`). -/
def delim30 : List Char :=
  List.replicate 30 '─'

/-- The block appended to `response_text` for one result by the loop of
`send_batch_results` (`bot.py:250-266`), including the trailing
delimiter line. -/
def renderResult (r : PyResult) : List Char :=
  ("**VIN #".data ++ natChars r.index ++ ":**\n".data) ++
  (match r with
    | .err _ vinOpt e =>
      "❌ ".data ++ e ++ "\n".data ++
      (match vinOpt with
        | some v => "VIN: ".data ++ v ++ "\n".data
        | none => [])
    | .ok _ v info =>
      "✅ **VIN:** ".data ++ v ++ "\n".data ++
      "**Make:** ".data ++ info.make ++ "\n".data ++
      "**Model:** ".data ++ info.model ++ "\n".data ++
      "**Year:** ".data ++ info.year ++ "\n".data ++
      "**Fuel Capacity:** ".data ++ info.fuel_capacity ++ "\n".data) ++
  "\n".data ++ delim30 ++ "\n\n".data

/-- The full `response_text` of `send_batch_results` (`bot.py:247-268`):
header, one block per result, then the summary line. -/
def renderText (results : List PyResult) : List Char :=
  "🚗 **VIN Processing Results**\n\n".data ++
  (results.map renderResult).flatten ++
  "📊 **Summary:** ".data ++ natChars (successCount results) ++ "/".data ++
  natChars results.length ++ " VINs processed successfully".data

/-- The chunk-emission loop of `send_batch_results` (`bot.py:273-280`):
`for i, part in enumerate(parts)` with `n = len(parts)`; whitespace-only
parts are skipped, the delimiter is re-appended to every emitted part
except the last one. -/
def emitLoop (sep : List Char) (n : Nat) : Nat → List (List Char) → List (List Char)
  | _, [] => []
  | i, part :: rest =>
    if pyStrip part = [] then emitLoop sep n (i + 1) rest
    else if i = 0 then (part ++ sep) :: emitLoop sep n (i + 1) rest
    else if i = n - 1 then part :: emitLoop sep n (i + 1) rest
    else (part ++ sep) :: emitLoop sep n (i + 1) rest

/-- `send_batch_results` (`bot.py:239-282`) as the sequence of message
texts it sends: one chunk when the rendered text fits in 4000
characters, otherwise the parts obtained by splitting at the delimiter
line, re-joined per the emission loop. -/
def send_batch_results (results : List PyResult) : List (List Char) :=
  if results.isEmpty then ["❌ No results to display.".data]
  else if 4000 < (renderText results).length then
    emitLoop delim30 (pySplit delim30 (renderText results)).length 0
      (pySplit delim30 (renderText results))
  else [renderText results]

theorem emitLoop_mem (sep : List Char) (n : Nat) :
    ∀ (parts : List (List Char)) (i : Nat) (c : List Char),
      c ∈ emitLoop sep n i parts →
      ∃ p ∈ parts, c = p ++ sep ∨ c = p := by
  intro parts
  induction parts with
  | nil => intro i c hc; simp [emitLoop] at hc
  | cons p rest ih =>
    intro i c hc
    simp only [emitLoop] at hc
    by_cases h1 : pyStrip p = []
    · rw [if_pos h1] at hc
      obtain ⟨q, hq, hor⟩ := ih (i + 1) c hc
      exact ⟨q, List.mem_cons_of_mem p hq, hor⟩
    · rw [if_neg h1] at hc
      by_cases h2 : i = 0
      · rw [if_pos h2] at hc
        rcases List.mem_cons.mp hc with h | h
        · exact ⟨p, List.mem_cons_self p rest, Or.inl h⟩
        · obtain ⟨q, hq, hor⟩ := ih (i + 1) c h
          exact ⟨q, List.mem_cons_of_mem p hq, hor⟩
      · rw [if_neg h2] at hc
        by_cases h3 : i = n - 1
        · rw [if_pos h3] at hc
          rcases List.mem_cons.mp hc with h | h
          · exact ⟨p, List.mem_cons_self p rest, Or.inr h⟩
          · obtain ⟨q, hq, hor⟩ := ih (i + 1) c h
            exact ⟨q, List.mem_cons_of_mem p hq, hor⟩
        · rw [if_neg h3] at hc
          rcases List.mem_cons.mp hc with h | h
          · exact ⟨p, List.mem_cons_self p rest, Or.inl h⟩
          · obtain ⟨q, hq, hor⟩ := ih (i + 1) c h
            exact ⟨q, List.mem_cons_of_mem p hq, hor⟩

theorem emitLoop_flatten (sep : List Char) (n : Nat) :
    ∀ (parts : List (List Char)) (i : Nat),
      (∀ p ∈ parts, pyStrip p ≠ []) → i + parts.length = n → 1 ≤ i →
      (emitLoop sep n i parts).flatten = List.intercalate sep parts := by
  intro parts
  induction parts with
  | nil => intro i _ _ _; simp [emitLoop, List.intercalate]
  | cons p rest ih =>
    intro i hstrip hn hi
    have hp : pyStrip p ≠ [] := hstrip p (List.mem_cons_self p rest)
    have hrest : ∀ q ∈ rest, pyStrip q ≠ [] := fun q hq =>
      hstrip q (List.mem_cons_of_mem p hq)
    have hi0 : i ≠ 0 := by omega
    simp only [emitLoop, if_neg hp, if_neg hi0]
    cases rest with
    | nil =>
      have hlast : i = n - 1 := by
        simp only [List.length_cons, List.length_nil] at hn; omega
      simp only [if_pos hlast]
      simp [emitLoop, List.intercalate]
    | cons q qs =>
      have hnotlast : i ≠ n - 1 := by
        simp only [List.length_cons] at hn; omega
      simp only [if_neg hnotlast]
      have hn2 : (i + 1) + (q :: qs).length = n := by
        simp only [List.length_cons] at hn ⊢; omega
      have hrec := ih (i + 1) hrest hn2 (by omega)
      simp only [List.flatten_cons, hrec, intercalate_two, List.append_assoc]


/-- Sentinel for an unresolved decode field (`bot.py:216-218`). -/
def naStr : List Char := "N/A".data

/-- Log levels used by `get_vin_info` diagnostics. -/
inductive LogLevel where
  | info
  | warning
  | error
deriving DecidableEq

/-- Outcome of the decode-service call of `get_vin_info`
(`bot.py:212-214`).  `raised` covers every exception inside the `try`
block: timeout, connection error, malformed JSON, missing
`Results[0]`; `record` is the parsed first result record, with `none`
for a missing `Make` / `Model` / `ModelYear` key. -/
inductive NhtsaResp where
  | raised (e : List Char)
  | record (mk md yr : Option (List Char))
deriving DecidableEq

/-- `get_vin_info` (`bot.py:206-237`), with the decode-service call and
the enrichment call abstracted as oracles.  Returns the function result
(`info` dict or `None`) paired with the log entries it writes. -/
def get_vin_info (enrichO : List Char → List Char → List Char → List Char)
    (resp : NhtsaResp) (vin : List Char) :
    Option VinInfo × List (LogLevel × List Char) :=
  match resp with
  | .raised e =>
    (none, [(LogLevel.error, "Error decoding VIN ".data ++ vin ++ ": ".data ++ e)])
  | .record mk md yr =>
    let make := mk.getD naStr
    let model := md.getD naStr
    let year := yr.getD naStr
    let lg : LogLevel × List Char :=
      (LogLevel.info, "NHTSA decoded - VIN: ".data ++ vin ++ ", Make: ".data ++
        make ++ ", Model: ".data ++ model ++ ", Year: ".data ++ year)
    if make = naStr ∨ model = naStr ∨ year = naStr then
      (none, [lg, (LogLevel.warning, "VIN decoding failed for ".data ++ vin)])
    else
      (some ⟨make, model, year, enrichO make model year⟩, [lg])

/-- The module-level enrichment configuration of `bot.py:17-25`:
`GEMINI_API_KEY` and the `model` global (initialised only when the key
is present, but read independently by the enricher). -/
structure GeminiEnv where
  apiKey : Option (List Char)
  client : Option Unit

/-- Outcome of `model.generate_content(prompt)` (`bot.py:316-320`):
`raised e` for an exception with text `e`; `noText` for a falsy
response object or one without a nonempty `text` attribute path;
`text t` for a response carrying text `t`. -/
inductive GeminiResp where
  | raised (e : List Char)
  | noText
  | text (t : List Char)
deriving DecidableEq

/-- `get_fuel_capacity_from_gemini` (`bot.py:301-330`).  The prompt only
feeds the oracle, so the call outcome is passed directly; the
make/model/year arguments are retained for fidelity of the signature. -/
def get_fuel_capacity_from_gemini (env : GeminiEnv) (call : GeminiResp)
    (make model_name year : List Char) : List Char :=
  match env.apiKey with
  | none => "API key not configured".data
  | some _ =>
    match env.client with
    | none => "Gemini model not initialized".data
    | some _ =>
      match call with
      | .raised e => "Error retrieving fuel capacity: ".data ++ e
      | .noText => "Unable to retrieve fuel capacity from AI".data
      | .text t =>
        if t.isEmpty then "Unable to retrieve fuel capacity from AI".data
        else pyStrip t

/-- `button_selectors` (`bot.py:66-72`). -/
def button_selectors : List (List Char) :=
  [ "input.random:nth-child(2)".data,
    "//button[contains(text(), \x27Random Real VIN\x27)]".data,
    "//button[contains(text(), \x27Real VIN\x27)]".data,
    "//input[@type=\x27button\x27 and contains(@value, \x27Real\x27)]".data ]

/-- `vin_selectors` (`bot.py:95-105`).  The first entry is the
concatenation of the two adjacent string literals of lines 96-97 (no
comma between them in the source). -/
def vin_selectors : List (List Char) :=
  [ ("//*[@id=\x22Result\x22]" ++ "//span[@id=\x27Result\x27]").data,
    "//div[@id=\x27Result\x27]".data,
    "//p[contains(@class, \x27Result\x27)]".data,
    "//div[contains(@class, \x27Result\x27)]".data,
    "//span[contains(@class, \x27Result\x27)]".data,
    "//div[contains(text(), \x27Result:\x27)]".data,
    "//*[contains(text(), \x27Result:\x27)]/following-sibling::*".data,
    "//*[string-length(text()) = 17 and matches(text(), \x27^[A-HJ-NPR-Z0-9]\x7b17\x7d$\x27)]".data ]

/-- Resource events of one `scrape_vin_from_website` call. -/
inductive Ev where
  | acquire
  | click (el : Nat)
  | quit
deriving DecidableEq

/-- External behaviour of the browser for one scrape call.  A `false`
flag means the corresponding driver call raises; `button` maps a
selector to the clickable element the bounded wait finds (or `none` on
timeout); `vinText` maps a selector to the text of the element
`find_element` returns (or `none` when it raises). -/
structure ScrapeOracles where
  chromeOk : Bool
  getOk : Bool
  button : List Char → Option Nat
  clickOk : Bool
  vinText : List Char → Option (List Char)
  pageSource : List Char

/-- The button-location loop of `scrape_vin_from_website`
(`bot.py:74-81`): try each selector in order, keep the first success,
and record the selectors attempted (second component). -/
def locateFirst (f : List Char → Option Nat) :
    List (List Char) → Option (List Char × Nat) × List (List Char)
  | [] => (none, [])
  | sel :: rest =>
    match f sel with
    | some e => (some (sel, e), [sel])
    | none =>
      let r := locateFirst f rest
      (r.1, sel :: r.2)

/-- The VIN-reading loop of `scrape_vin_from_website` (`bot.py:107-118`):
for each selector, read the element text, strip it, and accept iff
`len(vin_text) == 17 and vin_text.replace(" ", "").isalnum()`; the
value kept is the text with spaces removed. -/
def structuralVin (vinText : List Char → Option (List Char)) :
    List (List Char) → Option (List Char)
  | [] => none
  | sel :: rest =>
    match vinText sel with
    | none => structuralVin vinText rest
    | some t =>
      let s := pyStrip t
      if (s.length == 17) && pyIsAlnum (remSpaces s) then some (remSpaces s)
      else structuralVin vinText rest

/-- `scrape_vin_from_website` (`bot.py:48-137`): result paired with the
browser-resource events.  The `try/except/finally` is modelled
explicitly: any raise is caught and converted to `none`, and the
`finally` block emits `Ev.quit` exactly when the driver was acquired. -/
def scrape_vin_from_website (o : ScrapeOracles) : Option (List Char) × List Ev :=
  if !o.chromeOk then (none, [])
  else if !o.getOk then (none, [Ev.acquire, Ev.quit])
  else
    match (locateFirst o.button button_selectors).1 with
    | none => (none, [Ev.acquire, Ev.quit])
    | some (_sel, el) =>
      if !o.clickOk then (none, [Ev.acquire, Ev.quit])
      else
        let vinS := structuralVin o.vinText vin_selectors
        let vin :=
          match vinS with
          | some v => some v
          | none => firstVinMatch o.pageSource
        (vin, [Ev.acquire, Ev.click el, Ev.quit])

/-- The scrape failure message of `bot.py:184`. -/
def scrapeFailMsg : List Char := "Failed to scrape VIN from website".data

/-- The decode failure message of `bot.py:201`. -/
def decodeFailMsg : List Char := "Failed to decode VIN".data

/-- The body of the `for i in range(count)` loop of `process_vin_count`
(`bot.py:176-202`), as the list of result dicts it appends: scrape the
item, on `None` record a scrape failure and continue; otherwise decode,
recording success or a decode failure with the VIN attached. -/
def processLoop (scrapeO : Nat → Option (List Char))
    (decodeO : List Char → Option VinInfo) (count : Nat) : List PyResult :=
  (List.range count).map fun i =>
    match scrapeO i with
    | none => PyResult.err (i + 1) none scrapeFailMsg
    | some vin =>
      match decodeO vin with
      | some info => PyResult.ok (i + 1) vin info
      | none => PyResult.err (i + 1) (some vin) decodeFailMsg

/-- `process_vin_count` (`bot.py:164-204`): `none` models the early
return for `count > 2` (no batch is run); otherwise the list of result
dicts handed to `send_batch_results`. -/
def process_vin_count (scrapeO : Nat → Option (List Char))
    (decodeO : List Char → Option VinInfo) (count : Nat) :
    Option (List PyResult) :=
  if 2 < count then none
  else some (processLoop scrapeO decodeO count)

theorem pySplit_ne_nil (sep text : List Char) : pySplit sep text ≠ [] :=
  pySplitAux_ne_nil sep text.length text

/-- Claim C1: for every count in 1..2, `process_vin_count` runs the
batch and produces exactly `count` result entries, one per index
1..count in ascending order, for every behaviour of the scrape and
decode stages — an individual item's failure never terminates the
batch early. -/
theorem C1_batch_isolation (scrapeO : Nat → Option (List Char))
    (decodeO : List Char → Option VinInfo) (count : Nat)
    (hc : count = 1 ∨ count = 2) :
    process_vin_count scrapeO decodeO count =
      some (processLoop scrapeO decodeO count) ∧
    (processLoop scrapeO decodeO count).length = count ∧
    (processLoop scrapeO decodeO count).map PyResult.index =
      (List.range count).map (· + 1) := by
  have h2 : ¬ 2 < count := by rcases hc with rfl | rfl <;> decide
  refine ⟨by simp [process_vin_count, h2], by simp [processLoop], ?_⟩
  simp only [processLoop, List.map_map]
  apply List.map_congr_left
  intro i _
  simp only [Function.comp_apply]
  rcases hs : scrapeO i with _ | vin
  · simp [hs, PyResult.index]
  · rcases hd : decodeO vin with _ | info <;> simp [hs, hd, PyResult.index]

theorem C1_batch_isolation_witness :
    process_vin_count (fun _ => none) (fun _ => none) 2 =
      some (processLoop (fun _ => none) (fun _ => none) 2) ∧
    (processLoop (fun _ => none) (fun _ => none) 2).length = 2 ∧
    (processLoop (fun _ => none) (fun _ => none) 2).map PyResult.index =
      (List.range 2).map (· + 1) :=
  C1_batch_isolation (fun _ => none) (fun _ => none) 2 (Or.inr rfl)

/-- Claim C2 (code bug): the VIN validation implemented at
`bot.py:112-114` is `len == 17 and isalnum`, which accepts characters
outside the permitted alphabet.  Thus it accepts the claim's valid
example, but also accepts `"1HGCM82633A00435O"`, which contains `O`
and is outside the VIN alphabet (third conjunct), contradicting the
claimed contract and the code's own comment. -/
theorem C2_validation_code_eval :
    isValidVin ("1HGCM82633A004352".data) = true ∧
    isValidVin ("1HGCM82633A00435O".data) = true ∧
    ("1HGCM82633A00435O".data).all vinAlphaChar = false := by decide

/-- Claim C4: the enricher is a total function resolving its result in
the documented priority order; with a missing key it deterministically
answers "API key not configured" whatever the other inputs do. -/
theorem C4_enricher_resolution (env : GeminiEnv) (call : GeminiResp)
    (make mn yr : List Char) :
    (env.apiKey = none →
      get_fuel_capacity_from_gemini env call make mn yr =
        "API key not configured".data) ∧
    (env.apiKey ≠ none → env.client = none →
      get_fuel_capacity_from_gemini env call make mn yr =
        "Gemini model not initialized".data) ∧
    (env.apiKey ≠ none → env.client ≠ none → ∀ e, call = .raised e →
      get_fuel_capacity_from_gemini env call make mn yr =
        "Error retrieving fuel capacity: ".data ++ e) ∧
    (env.apiKey ≠ none → env.client ≠ none → call = .noText →
      get_fuel_capacity_from_gemini env call make mn yr =
        "Unable to retrieve fuel capacity from AI".data) ∧
    (env.apiKey ≠ none → env.client ≠ none → ∀ t, call = .text t → t = [] →
      get_fuel_capacity_from_gemini env call make mn yr =
        "Unable to retrieve fuel capacity from AI".data) ∧
    (env.apiKey ≠ none → env.client ≠ none → ∀ t, call = .text t → t ≠ [] →
      get_fuel_capacity_from_gemini env call make mn yr = pyStrip t) := by
  rcases env with ⟨key, client⟩
  cases key <;> cases client <;> cases call <;>
    simp [get_fuel_capacity_from_gemini, List.isEmpty_iff] <;>
    exact ⟨fun h1 h2 => absurd h1 h2, fun h1 h2 => absurd h2 h1⟩

theorem C4_enricher_resolution_witness :
    get_fuel_capacity_from_gemini ⟨none, none⟩ GeminiResp.noText
        ("Honda".data) ("Accord".data) ("2003".data) =
      "API key not configured".data :=
  (C4_enricher_resolution ⟨none, none⟩ GeminiResp.noText
    ("Honda".data) ("Accord".data) ("2003".data)).1 rfl

/-- Claim C5 counterexample: a network-level failure and an
all-"N/A" decode give the *same* caller-visible outcome of
`get_vin_info` (both `None`); the code has no distinct
ServiceUnavailable result. -/
theorem C5_counterexample :
    (get_vin_info (fun _ _ _ => []) (NhtsaResp.raised ("timed out".data))
        ("1HGCM82633A004352".data)).1 =
      (get_vin_info (fun _ _ _ => []) (NhtsaResp.record none none none)
        ("1HGCM82633A004352".data)).1 := by decide

/-- Claim C5 (amended): both failure classes return `None` to the
caller — indistinguishable there — and are told apart only by the log
entries: a network failure writes a single error-level entry, an
"N/A" decode writes an info entry then a warning-level entry. -/
theorem C5_amended_logs (enrichO : List Char → List Char → List Char → List Char)
    (vin e : List Char) (mk md yr : Option (List Char))
    (h : mk.getD naStr = naStr ∨ md.getD naStr = naStr ∨ yr.getD naStr = naStr) :
    (get_vin_info enrichO (.raised e) vin).1 = none ∧
    (get_vin_info enrichO (.record mk md yr) vin).1 = none ∧
    (get_vin_info enrichO (.raised e) vin).1 =
      (get_vin_info enrichO (.record mk md yr) vin).1 ∧
    (get_vin_info enrichO (.raised e) vin).2.map Prod.fst = [LogLevel.error] ∧
    (get_vin_info enrichO (.record mk md yr) vin).2.map Prod.fst =
      [LogLevel.info, LogLevel.warning] := by
  refine ⟨rfl, ?_, ?_, rfl, ?_⟩ <;> simp [get_vin_info, if_pos h]

theorem C5_amended_logs_witness :
    (get_vin_info (fun _ _ _ => []) (.raised ("timed out".data)) ("V".data)).1 = none ∧
    (get_vin_info (fun _ _ _ => []) (.record none none none) ("V".data)).1 = none ∧
    (get_vin_info (fun _ _ _ => []) (.raised ("timed out".data)) ("V".data)).1 =
      (get_vin_info (fun _ _ _ => []) (.record none none none) ("V".data)).1 ∧
    (get_vin_info (fun _ _ _ => []) (.raised ("timed out".data)) ("V".data)).2.map
      Prod.fst = [LogLevel.error] ∧
    (get_vin_info (fun _ _ _ => []) (.record none none none) ("V".data)).2.map
      Prod.fst = [LogLevel.info, LogLevel.warning] :=
  C5_amended_logs (fun _ _ _ => []) ("V".data) ("timed out".data) none none none
    (Or.inl rfl)

/-- Claim C6: decoding fails (returns `None`, no vehicle dict) whenever
any of make/model/year resolves to "N/A", regardless of the other two;
a vehicle dict is produced only when none of the three is "N/A" (and
never on a raised decode call). -/
theorem C6_na_gating (enrichO : List Char → List Char → List Char → List Char)
    (vin : List Char) (mk md yr : Option (List Char)) :
    ((mk.getD naStr = naStr ∨ md.getD naStr = naStr ∨ yr.getD naStr = naStr) →
      (get_vin_info enrichO (.record mk md yr) vin).1 = none) ∧
    (∀ info, (get_vin_info enrichO (.record mk md yr) vin).1 = some info →
      mk.getD naStr ≠ naStr ∧ md.getD naStr ≠ naStr ∧ yr.getD naStr ≠ naStr ∧
      info = ⟨mk.getD naStr, md.getD naStr, yr.getD naStr,
        enrichO (mk.getD naStr) (md.getD naStr) (yr.getD naStr)⟩) ∧
    (∀ e, (get_vin_info enrichO (.raised e) vin).1 = none) := by
  refine ⟨?_, ?_, fun e => rfl⟩
  · intro h
    simp [get_vin_info, if_pos h]
  · intro info hinfo
    by_cases h : mk.getD naStr = naStr ∨ md.getD naStr = naStr ∨ yr.getD naStr = naStr
    · simp [get_vin_info, if_pos h] at hinfo
    · push_neg at h
      obtain ⟨h1, h2, h3⟩ := h
      refine ⟨h1, h2, h3, ?_⟩
      simp only [get_vin_info, if_neg (by tauto :
        ¬(mk.getD naStr = naStr ∨ md.getD naStr = naStr ∨ yr.getD naStr = naStr))]
        at hinfo
      exact (Option.some.injEq _ _ ▸ hinfo).symm

theorem C6_na_gating_witness :
    ((( some ("Honda".data)).getD naStr = naStr ∨
      ((none : Option (List Char))).getD naStr = naStr ∨
      ((some ("2003".data))).getD naStr = naStr) →
      (get_vin_info (fun _ _ _ => []) (.record (some ("Honda".data)) none
        (some ("2003".data))) ("V".data)).1 = none) ∧
    ((get_vin_info (fun _ _ _ => []) (.record (some ("Honda".data)) none
        (some ("2003".data))) ("V".data)).1 = none) := by
  have h := C6_na_gating (fun _ _ _ => []) ("V".data)
    (some ("Honda".data)) none (some ("2003".data))
  exact ⟨h.1, h.1 (Or.inr (Or.inl rfl))⟩

theorem locateFirst_hit (f : List Char → Option Nat) :
    ∀ (sels : List (List Char)) (k : Nat) (hk : k < sels.length) (e : Nat),
      (∀ (j : Nat) (hj : j < k), f (sels.get ⟨j, Nat.lt_trans hj hk⟩) = none) →
      f (sels.get ⟨k, hk⟩) = some e →
      locateFirst f sels = (some (sels.get ⟨k, hk⟩, e), sels.take (k + 1)) := by
  intro sels
  induction sels with
  | nil => intro k hk; simp at hk
  | cons s rest ih =>
    intro k hk e hbefore hhit
    cases k with
    | zero =>
      simp only [List.get] at hhit
      simp [locateFirst, hhit]
    | succ k2 =>
      have h0 : f s = none := by
        have := hbefore 0 (Nat.succ_pos k2)
        simpa using this
      have hk2 : k2 < rest.length := by
        simpa using hk
      have hb2 : ∀ (j : Nat) (hj : j < k2),
          f (rest.get ⟨j, Nat.lt_trans hj hk2⟩) = none := by
        intro j hj
        have := hbefore (j + 1) (Nat.succ_lt_succ hj)
        simpa using this
      have hh2 : f (rest.get ⟨k2, hk2⟩) = some e := by
        simpa using hhit
      simp [locateFirst, h0, ih k2 hk2 e hb2 hh2]

theorem locateFirst_none (f : List Char → Option Nat) :
    ∀ (sels : List (List Char)), (∀ s ∈ sels, f s = none) →
      locateFirst f sels = (none, sels) := by
  intro sels
  induction sels with
  | nil => intro _; rfl
  | cons s rest ih =>
    intro h
    have h0 : f s = none := h s (List.mem_cons_self s rest)
    simp [locateFirst, h0, ih (fun q hq => h q (List.mem_cons_of_mem s hq))]

/-- Claim C7: the trigger-button location is a deterministic ordered
fallback: strategies are tried strictly in list order, the first one
that yields an element wins (exactly the first k+1 strategies are
attempted, no later one), and when every strategy fails the scrape
returns `None` without retrying. -/
theorem C7_ordered_fallback (f : List Char → Option Nat)
    (sels : List (List Char)) :
    (∀ (k : Nat) (hk : k < sels.length) (e : Nat),
      (∀ (j : Nat) (hj : j < k), f (sels.get ⟨j, Nat.lt_trans hj hk⟩) = none) →
      f (sels.get ⟨k, hk⟩) = some e →
      locateFirst f sels = (some (sels.get ⟨k, hk⟩, e), sels.take (k + 1))) ∧
    ((∀ s ∈ sels, f s = none) → locateFirst f sels = (none, sels)) ∧
    (∀ o : ScrapeOracles, (∀ s ∈ button_selectors, o.button s = none) →
      (scrape_vin_from_website o).1 = none) := by
  refine ⟨fun k hk e hb hh => locateFirst_hit f sels k hk e hb hh,
    fun h => locateFirst_none f sels h, ?_⟩
  intro o h
  rcases o with ⟨co, go, bf, cl, vt, ps⟩
  have hb : locateFirst bf button_selectors = (none, button_selectors) :=
    locateFirst_none bf button_selectors h
  cases co <;> cases go <;> simp [scrape_vin_from_website, hb]

theorem C7_ordered_fallback_witness :
    locateFirst (fun s => if s = "b".data then some 5 else none)
        ["a".data, "b".data, "c".data] =
      (some ((["a".data, "b".data, "c".data] : List (List Char)).get
        ⟨1, by decide⟩, 5), (["a".data, "b".data, "c".data] :
          List (List Char)).take 2) := by
  apply (C7_ordered_fallback (fun s => if s = "b".data then some 5 else none)
    ["a".data, "b".data, "c".data]).1 1 (by decide) 5
  · intro j hj
    have hj0 : j = 0 := by omega
    subst hj0
    show (if ("a".data : List Char) = "b".data then some 5 else none) = none
    decide
  · decide

/-- Claim C8: on every execution path of `scrape_vin_from_website`, the
browser session is released exactly when it was acquired — `Ev.quit`
appears in the event trace iff `Ev.acquire` does, and whenever the
driver was acquired the last event before returning is `Ev.quit`. -/
theorem C8_driver_release (o : ScrapeOracles) :
    (Ev.quit ∈ (scrape_vin_from_website o).2 ↔
      Ev.acquire ∈ (scrape_vin_from_website o).2) ∧
    (Ev.acquire ∈ (scrape_vin_from_website o).2 →
      ((scrape_vin_from_website o).2).getLast? = some Ev.quit) := by
  rcases o with ⟨co, go, bf, cl, vt, ps⟩
  rcases hb : (locateFirst bf button_selectors).1 with _ | ⟨sel, el⟩ <;>
    cases co <;> cases go <;> cases cl <;>
      simp [scrape_vin_from_website, hb, List.getLast?]

def oW : ScrapeOracles :=
  { chromeOk := true
    getOk := true
    button := fun _ => some 7
    clickOk := true
    vinText := fun _ => none
    pageSource := "zz1HGCM82633A004352!!".data }

theorem C8_driver_release_witness :
    ((scrape_vin_from_website oW).2).getLast? = some Ev.quit :=
  (C8_driver_release oW).2 (by decide)

/-- Claim C9: when the structural VIN-reading strategies all fail, the
scrape falls back to the first 17-character VIN-alphabet match in the
page markup and returns it unconditionally; it returns `None` only when
both the structural pass and the textual fallback fail. -/
theorem C9_regex_fallback (o : ScrapeOracles) (sel : List Char) (el : Nat)
    (hc : o.chromeOk = true) (hg : o.getOk = true)
    (hb : (locateFirst o.button button_selectors).1 = some (sel, el))
    (hcl : o.clickOk = true) :
    (structuralVin o.vinText vin_selectors = none →
      (scrape_vin_from_website o).1 = firstVinMatch o.pageSource) ∧
    (∀ v, structuralVin o.vinText vin_selectors = some v →
      (scrape_vin_from_website o).1 = some v) ∧
    ((scrape_vin_from_website o).1 = none ↔
      (structuralVin o.vinText vin_selectors = none ∧
        firstVinMatch o.pageSource = none)) := by
  rcases o with ⟨co, go, bf, cl, vt, ps⟩
  simp only at hc hg hcl hb
  subst hc; subst hg; subst hcl
  rcases hv : structuralVin vt vin_selectors with _ | v2 <;>
    simp [scrape_vin_from_website, hb, hv]

theorem C9_regex_fallback_witness :
    (structuralVin oW.vinText vin_selectors = none →
      (scrape_vin_from_website oW).1 = firstVinMatch oW.pageSource) ∧
    ((scrape_vin_from_website oW).1 = none ↔
      (structuralVin oW.vinText vin_selectors = none ∧
        firstVinMatch oW.pageSource = none)) := by
  have h := C9_regex_fallback oW ("input.random:nth-child(2)".data) 7
    rfl rfl (by decide) rfl
  exact ⟨h.1, h.2.2⟩

def oC10 : ScrapeOracles :=
  { chromeOk := true
    getOk := true
    button := fun _ => some 0
    clickOk := true
    vinText := fun s => if s = vin_selectors.headD [] then
      some ("ABCDEFGH 01234567".data) else none
    pageSource := [] }

/-- Claim C10 (implicit): the structural acceptance check measures the
17-character length on the element text *before* removing internal
spaces but returns the text *with* spaces removed, so an element text of
17 characters containing an internal space makes the scrape return a
16-character string — shorter than a VIN. -/
theorem C10_space_shrinks_vin :
    isValidVin ("ABCDEFGH 01234567".data) = true ∧
    (scrape_vin_from_website oC10).1 = some ("ABCDEFGH01234567".data) ∧
    ("ABCDEFGH01234567".data).length < 17 := by decide

def cexErr : List Char := List.replicate 4001 'E'

def exC3 : List PyResult := [PyResult.err 1 none cexErr]

def cexA : List Char :=
  "🚗 **VIN Processing Results**\n\n".data ++
    (("**VIN #".data ++ natChars 1 ++ ":**\n".data) ++
      ("❌ ".data ++ cexErr ++ "\n".data) ++ "\n".data)

def cexB : List Char :=
  "\n\n".data ++
    ("📊 **Summary:** ".data ++ natChars (successCount exC3) ++ "/".data ++
      natChars exC3.length ++ " VINs processed successfully".data)

theorem cexText_eq : renderText exC3 = cexA ++ delim30 ++ cexB := by
  simp [renderText, exC3, renderResult, cexA, cexB, PyResult.index,
    List.append_assoc]

theorem cexErr_free : ∀ x ∈ cexErr, ('─' == x) = false := by
  intro x hx
  rw [cexErr, List.mem_replicate] at hx
  rcases hx with ⟨-, rfl⟩
  decide

theorem cexA_free : ∀ x ∈ cexA, ('─' == x) = false := by
  simp only [cexA, List.forall_mem_append]
  and_intros <;> first
    | exact cexErr_free
    | decide

theorem cexB_free : ∀ x ∈ cexB, ('─' == x) = false := by decide

theorem cexA_long : 4001 ≤ cexA.length := by
  simp only [cexA, cexErr, List.length_append, List.length_replicate]
  omega

theorem cexText_long : 4000 < (renderText exC3).length := by
  rw [cexText_eq]
  simp only [List.length_append]
  have := cexA_long
  omega

theorem delim30_cons : delim30 = '─' :: List.replicate 29 '─' := by decide

theorem cex_split : pySplit delim30 (renderText exC3) = [cexA, cexB] := by
  rw [pySplit, cexText_eq, delim30_cons]
  apply pySplitAux_append_occ '─' (List.replicate 29 '─') cexA cexB
    cexA_free cexB_free
  simp [List.length_append]
  omega

theorem cex_chunks : send_batch_results exC3 = [cexA ++ delim30, cexB] := by
  have hErr : ('E' : Char) ∈ cexErr := by
    rw [cexErr]
    exact List.mem_replicate.mpr ⟨by norm_num, rfl⟩
  have hA : pyStrip cexA ≠ [] := by
    apply pyStrip_ne_nil cexA 'E'
    · rw [cexA]
      exact List.mem_append.mpr (Or.inr (List.mem_append.mpr (Or.inl
        (List.mem_append.mpr (Or.inr (List.mem_append.mpr (Or.inl
          (List.mem_append.mpr (Or.inr hErr)))))))))
    · decide
  have hB : pyStrip cexB ≠ [] := by decide
  rw [send_batch_results]
  rw [if_neg (by decide : ¬(exC3.isEmpty = true))]
  rw [if_pos cexText_long]
  rw [cex_split]
  simp only [List.length_cons, List.length_nil]
  simp only [emitLoop, if_neg hA, if_neg hB]
  norm_num

theorem emitLoop_zero_step (sep : List Char) (n : Nat) (p : List Char)
    (rest : List (List Char)) (hp : pyStrip p ≠ []) :
    emitLoop sep n 0 (p :: rest) = (p ++ sep) :: emitLoop sep n 1 rest := by
  simp [emitLoop, hp]

/-- Claim C3 counterexample: a batch whose single item carries an error
string of 4001 characters makes `send_batch_results` emit a chunk
longer than 4000 characters (splitting happens only at the delimiter
line, and the oversized block stays in one chunk). -/
theorem C3_counterexample : ∃ c ∈ send_batch_results exC3, 4000 < c.length := by
  refine ⟨cexA ++ delim30, ?_, ?_⟩
  · rw [cex_chunks]
    exact List.mem_cons_self _ _
  · simp only [List.length_append]
    have := cexA_long
    omega

/-- Claim C3 (amended): chunks are split only at the fixed-width
delimiter line — every emitted chunk is a split part, with the
delimiter re-appended to all but the last — and, whenever every split
part is non-blank and there are at least two parts (true of every
rendered nonempty batch), concatenating all emitted chunks in order
reproduces the rendered report exactly.  The 4000-character bound of
the original claim is dropped: a chunk may exceed it when a single
item block does (see the counterexample). -/
theorem C3_amended_chunking (results : List PyResult) (h0 : results ≠ [])
    (h1 : ∀ p ∈ pySplit delim30 (renderText results), pyStrip p ≠ [])
    (h2 : 2 ≤ (pySplit delim30 (renderText results)).length) :
    (send_batch_results results).flatten = renderText results ∧
    (∀ c ∈ send_batch_results results, c = renderText results ∨
      ∃ p ∈ pySplit delim30 (renderText results),
        c = p ++ delim30 ∨ c = p) := by
  have hne : results.isEmpty = false := by
    cases results with
    | nil => exact absurd rfl h0
    | cons r rs => rfl
  rw [send_batch_results, hne]
  simp only [Bool.false_eq_true, if_false]
  by_cases hlen : 4000 < (renderText results).length
  · rw [if_pos hlen]
    constructor
    · rcases hp : pySplit delim30 (renderText results) with _ | ⟨p, rest⟩
      · exact absurd hp (pySplit_ne_nil _ _)
      rcases rest with _ | ⟨q, qs⟩
      · rw [hp] at h2
        simp at h2
      · rw [hp] at h1
        have hp0 : pyStrip p ≠ [] := h1 p (List.mem_cons_self _ _)
        have hq0 : ∀ r ∈ q :: qs, pyStrip r ≠ [] := fun r hr =>
          h1 r (List.mem_cons_of_mem p hr)
        rw [emitLoop_zero_step delim30 (p :: q :: qs).length p (q :: qs) hp0,
          List.flatten_cons]
        rw [emitLoop_flatten delim30 (p :: q :: qs).length (q :: qs) 1 hq0
          (by simp only [List.length_cons]; omega) (by omega)]
        rw [← intercalate_two]
        have := pySplit_flatten delim30 (renderText results) (by decide)
        rw [hp] at this
        exact this
    · intro c hc
      right
      exact emitLoop_mem delim30 _ _ 0 c hc
  · rw [if_neg hlen]
    refine ⟨by simp, ?_⟩
    intro c hc
    left
    simpa using hc

def exC3w : List PyResult := [PyResult.err 1 none scrapeFailMsg]

theorem C3_amended_chunking_witness :
    (send_batch_results exC3w).flatten = renderText exC3w ∧
    (∀ c ∈ send_batch_results exC3w, c = renderText exC3w ∨
      ∃ p ∈ pySplit delim30 (renderText exC3w),
        c = p ++ delim30 ∨ c = p) :=
  C3_amended_chunking exC3w (by decide) (by decide) (by decide)
